import Mathlib

/-!
Verification of the claude-tg core against its specification.

The development shallowly embeds the three core subsystems of the bridge:
the stream parser and runner event queue (`runner.py`), the message chain
and chat stream renderer (`stream.py`), and the turn coordinator
(`bot.py`).  Python strings are modelled as `List Char` where character
level operations matter and as `String` elsewhere; wall-clock times
(floats in the source) are modelled as integers, and USD costs as
rationals.
-/

namespace ClaudeTg

/-- Python strings, at character granularity. -/
abbrev Str := List Char

/-! ## MessageChain — `stream.py`, class `MessageChain` -/

/-- Embeds `MessageChain.__init__`: `max_length` defaults to 3800; the chunk list,
current buffer and footer start empty. -/
structure MessageChain where
  maxLength : Nat := 3800
  chunks : List Str := []
  current : Str := []
  footer : Str := []

/-- Embeds `MessageChain.needs_new_message`: `len(self._current) > self.max_length`. -/
def MessageChain.needsNewMessage (ch : MessageChain) : Bool :=
  ch.current.length > ch.maxLength

/-- Embeds `MessageChain.append_text`: `self._current += text`. -/
def MessageChain.appendText (ch : MessageChain) (text : Str) : MessageChain :=
  { ch with current := ch.current ++ text }

/-- Embeds `MessageChain.append_tool_call`: ensure `current` ends with a newline,
then append `line + "\n"`. -/
def MessageChain.appendToolCall (ch : MessageChain) (line : Str) : MessageChain :=
  let cur :=
    if ch.current ≠ [] ∧ ch.current.getLast? ≠ some '\n' then ch.current ++ ['\n']
    else ch.current
  { ch with current := cur ++ line ++ ['\n'] }

/-- Embeds `str.rfind("\n", 0, bound)` restricted to what `complete_current` needs:
the index of the last newline of `l`, or `none` (Python's `-1`). -/
def lastNewlineIdx : Str → Option Nat
  | [] => none
  | c :: rest =>
    match lastNewlineIdx rest with
    | some i => some (i + 1)
    | none => if c = '\n' then some 0 else none

/-- Embeds `MessageChain.complete_current`: freeze the whole buffer when it fits,
otherwise split at the last newline of `current[0:max_length]` unless that
position is below `max_length // 2` (Python's `-1` for "no newline" always
is), in which case hard-cut at `max_length`; the suffix, stripped of
leading newlines, becomes the new buffer.  Returns the frozen chunk. -/
def MessageChain.completeCurrent (ch : MessageChain) : Str × MessageChain :=
  let text := ch.current
  if text.length ≤ ch.maxLength then
    (text, { ch with chunks := ch.chunks ++ [text], current := [] })
  else
    let splitAt :=
      match lastNewlineIdx (text.take ch.maxLength) with
      | some i => if i < ch.maxLength / 2 then ch.maxLength else i
      | none => ch.maxLength
    let completed := text.take splitAt
    (completed,
      { ch with chunks := ch.chunks ++ [completed],
                current := (text.drop splitAt).dropWhile (· == '\n') })

/-- Embeds `str.rstrip()`: drop trailing whitespace. -/
def rstripWs (l : Str) : Str := (l.reverse.dropWhile Char.isWhitespace).reverse

/-- Embeds `str.strip()`: drop leading and trailing whitespace. -/
def pyStrip (l : Str) : Str := rstripWs (l.dropWhile Char.isWhitespace)

/-- Embeds `MessageChain.set_footer`. -/
def MessageChain.setFooter (ch : MessageChain) (footer : Str) : MessageChain :=
  { ch with footer := footer }

/-- Embeds `MessageChain.render`: the current buffer, with the footer appended
after a blank line when the footer is non-empty. -/
def MessageChain.render (ch : MessageChain) : Str :=
  if ch.footer ≠ [] then rstripWs ch.current ++ ('\n' :: '\n' :: ch.footer)
  else ch.current

/-! Specification-side description of the split (spec §4.3), for the
refinement claim C5.  These definitions follow the specification's words,
not the source. -/

/-- Following the specification text: the split position is the last
newline within `current[0:max_length]`, replaced by a hard cut at
`max_length` when that newline position is below `max_length/2` or when
there is no newline at all. -/
def specSplitPos (maxLen : Nat) (cur : Str) : Nat :=
  match lastNewlineIdx (cur.take maxLen) with
  | some i => if i < maxLen / 2 then maxLen else i
  | none => maxLen

/-- Following the specification text: the frozen chunk is the whole buffer
when it fits within `max_length`, else the prefix up to the split
position. -/
def specFrozenChunk (maxLen : Nat) (cur : Str) : Str :=
  if cur.length ≤ maxLen then cur else cur.take (specSplitPos maxLen cur)

/-- Following the specification text: after the split the suffix becomes
the new current buffer with leading newlines stripped (empty when the
whole buffer was frozen). -/
def specRemainder (maxLen : Nat) (cur : Str) : Str :=
  if cur.length ≤ maxLen then []
  else (cur.drop (specSplitPos maxLen cur)).dropWhile (· == '\n')

/-! ## Chain operation sequences (C6) -/

/-- One buffer operation of the chain: `append_text`, `append_tool_call`,
or `complete_current`. -/
inductive ChainOp where
  | text (s : Str)
  | toolCall (line : Str)
  | complete

/-- State change of one chain operation. -/
def applyOp (ch : MessageChain) : ChainOp → MessageChain
  | .text s => ch.appendText s
  | .toolCall line => ch.appendToolCall line
  | .complete => ch.completeCurrent.2

/-- The chain state after a sequence of operations. -/
def runOps (ch : MessageChain) (ops : List ChainOp) : MessageChain :=
  ops.foldl applyOp ch

/-- The tool-call newline padding rule, applied to a flat transcript:
ensure the transcript ends with a newline before the tool line. -/
def padIfNeeded (acc : Str) : Str :=
  if acc ≠ [] ∧ acc.getLast? ≠ some '\n' then acc ++ ['\n'] else acc

/-- One operation's contribution to the flat transcript of all inputs. -/
def stepInput (acc : Str) : ChainOp → Str
  | .text s => acc ++ s
  | .toolCall line => padIfNeeded acc ++ line ++ ['\n']
  | .complete => acc

/-- Concatenation of all inputs supplied via `append_text` and
`append_tool_call`, with the tool-call newline padding rule applied. -/
def paddedInput (ops : List ChainOp) : Str :=
  ops.foldl stepInput []

/-- Frozen chunks re-joined, re-inserting `ns i` newlines after chunk `i`
(the newlines trimmed at each chunk boundary). -/
def joinChunks : List Str → List Nat → Str
  | [], _ => []
  | c :: cs, [] => c ++ joinChunks cs []
  | c :: cs, n :: ns => c ++ List.replicate n '\n' ++ joinChunks cs ns

/-- Add one to the last element of a list of newline counts. -/
def bumpLast : List Nat → List Nat
  | [] => []
  | [n] => [n + 1]
  | n :: ns => n :: bumpLast ns

/-- The invariant tying the flat transcript to the chain state: the
transcript is the chunks re-joined with some newline counts, followed by
the current buffer. -/
def ChainInv (ch : MessageChain) (acc : Str) : Prop :=
  ∃ ns : List Nat, ns.length = ch.chunks.length ∧
    acc = joinChunks ch.chunks ns ++ ch.current

/-! ## TelegramStream — `stream.py`, class `TelegramStream`

The platform bot handle is modelled by an effect trace: each
`send_message` / `edit_text` call becomes a `TgEff` value.  Wall-clock
times (`time.time()` floats in the source) are modelled as integers;
`update_interval` (default 2.0 s) becomes the integer 2.  Message handles
are modelled by the numeric ids the model itself allocates. -/

/-- One platform call made by the renderer: an edit of a message's text or
the sending of a new message.  `keyboard` records whether the cancel
keyboard (`reply_markup`) was attached. -/
inductive TgEff where
  | edit (messageId : Nat) (text : Str) (keyboard : Bool)
  | send (messageId : Nat) (text : Str) (keyboard : Bool)
deriving DecidableEq

/-- Embeds `TelegramStream.__init__`: fresh chain, `update_interval` (2.0 s by
default, modelled as 2), no messages yet, `last_update = 0.0`, not dirty. -/
structure TelegramStream where
  chain : MessageChain := {}
  updateInterval : Int := 2
  currentMsg : Option Nat := none
  firstMsg : Option Nat := none
  lastUpdate : Int := 0
  dirty : Bool := false
  nextMsgId : Nat := 1

/-- The initial placeholder text of `TelegramStream.start`. -/
def thinkingText : Str := "⏳ Thinking...".data

/-- The placeholder text of a continuation message created in `_flush`. -/
def continuationText : Str := "⏳ ...".data

/-- The text prepended by `finalize(cancelled=True)`. -/
def cancelledBanner : Str := "🛑 Cancelled\n\n".data

/-- Embeds `TelegramStream.start`: post the placeholder message bearing the
cancel keyboard and remember it as both first and current message. -/
def TelegramStream.start (st : TelegramStream) : TelegramStream × List TgEff :=
  ({ st with currentMsg := some st.nextMsgId, firstMsg := some st.nextMsgId,
             nextMsgId := st.nextMsgId + 1 },
   [.send st.nextMsgId thinkingText true])

/-- Embeds `TelegramStream._flush`: nothing when clean or without a current
message; otherwise complete the chain and roll to a new placeholder when
the chain overflows, then edit the current message with the rendered
chain when the rendering is non-blank; stamp the update time and clear
the dirty flag. -/
def TelegramStream.flush (st : TelegramStream) (now : Int) : TelegramStream × List TgEff :=
  match st.currentMsg with
  | none => (st, [])
  | some m =>
    if st.dirty then
      if st.chain.needsNewMessage then
        let r := st.chain.completeCurrent
        let newId := st.nextMsgId
        let st1 : TelegramStream :=
          { st with chain := r.2, currentMsg := some newId, nextMsgId := newId + 1 }
        let display := st1.chain.render
        let tailEffs : List TgEff :=
          if pyStrip display ≠ [] then [.edit newId display true] else []
        ({ st1 with lastUpdate := now, dirty := false },
         .edit m r.1 false :: .send newId continuationText true :: tailEffs)
      else
        let display := st.chain.render
        let tailEffs : List TgEff :=
          if pyStrip display ≠ [] then [.edit m display true] else []
        ({ st with lastUpdate := now, dirty := false }, tailEffs)
    else (st, [])

/-- Embeds `TelegramStream._maybe_update`: rate limit, then flush. -/
def TelegramStream.maybeUpdate (st : TelegramStream) (now : Int) :
    TelegramStream × List TgEff :=
  if now - st.lastUpdate < st.updateInterval then (st, []) else st.flush now

/-- Embeds `TelegramStream.push_text`. -/
def TelegramStream.pushText (st : TelegramStream) (now : Int) (text : Str) :
    TelegramStream × List TgEff :=
  ({ st with chain := st.chain.appendText text, dirty := true }).maybeUpdate now

/-- Embeds `TelegramStream.push_tool_call`. -/
def TelegramStream.pushToolCall (st : TelegramStream) (now : Int) (line : Str) :
    TelegramStream × List TgEff :=
  ({ st with chain := st.chain.appendToolCall line, dirty := true }).maybeUpdate now

/-- Embeds `TelegramStream.push_tool_result` (appends the html as text). -/
def TelegramStream.pushToolResult (st : TelegramStream) (now : Int) (html : Str) :
    TelegramStream × List TgEff :=
  ({ st with chain := st.chain.appendText html, dirty := true }).maybeUpdate now

/-- The chain as mutated inside `finalize`: the cancel banner prepended
when `cancelled`, the footer set when non-empty. -/
def TelegramStream.finalizeChain (st : TelegramStream) (footer : Str) (cancelled : Bool) :
    MessageChain :=
  let ch1 :=
    if cancelled then { st.chain with current := cancelledBanner ++ st.chain.current }
    else st.chain
  if footer ≠ [] then ch1.setFooter footer else ch1

/-- Embeds `TelegramStream.finalize`: apply the cancel banner and footer, render,
and perform one final edit with the keyboard removed — but only when the
rendering is non-blank and a current message exists. -/
def TelegramStream.finalize (st : TelegramStream) (footer : Str) (cancelled : Bool) :
    TelegramStream × List TgEff :=
  let ch2 := st.finalizeChain footer cancelled
  let display := ch2.render
  let st' := { st with chain := ch2 }
  match st.currentMsg with
  | some m => if pyStrip display ≠ [] then (st', [.edit m display false]) else (st', [])
  | none => (st', [])

/-! ## `TelegramStream._edit_message` exception behaviour (C9)

The two platform calls inside `_edit_message` (the HTML-mode edit and the
plain-text retry) are modelled by oracles describing how each attempt
terminates. -/

/-- How one `edit_text` call terminates: success, a `BadRequest`, or any
other exception. -/
inductive EditAttempt where
  | ok
  | badRequest (msg : Str)
  | otherError (msg : Str)
deriving DecidableEq

/-- Embeds `str.lower()`. -/
def toLowerStr (l : Str) : Str := l.map Char.toLower

/-- Python's `needle in hay` on strings. -/
def containsSub (needle hay : Str) : Bool :=
  (List.range (hay.length + 1)).any (fun i => needle.isPrefixOf (hay.drop i))

/-- The marker tested by `_edit_message`. -/
def notModifiedMarker : Str := "message is not modified".data

/-- Embeds `TelegramStream._edit_message`'s exception flow: `some e` is an
exception with message `e` propagating to the caller, `none` means no
exception escapes.  A `BadRequest` from the HTML edit whose lowered text
contains the marker returns; any other `BadRequest` triggers the
plain-text retry, around which only `BadRequest` is caught; any non
`BadRequest` error of the first attempt is swallowed by the outer
handler. -/
def editMessageOutcome (htmlAttempt plainAttempt : EditAttempt) : Option Str :=
  match htmlAttempt with
  | .ok => none
  | .otherError _ => none
  | .badRequest m =>
    if containsSub notModifiedMarker (toLowerStr m) then none
    else
      match plainAttempt with
      | .ok => none
      | .badRequest _ => none
      | .otherError e => some e

/-! ## Stream parser — `runner.py`, class `StreamParser`

Python raises for some record shapes (attribute access on non-dicts,
iteration over non-iterables), so the embedded parser returns
`Except PyErr`. -/

/-- A decoded JSON value.  Numbers are modelled as rationals. -/
inductive Json where
  | null
  | bool (b : Bool)
  | num (q : ℚ)
  | str (s : String)
  | arr (elems : List Json)
  | obj (fields : List (String × Json))

/-- A decoded JSON record, i.e. a Python dict (keys unique). -/
abbrev JObj := List (String × Json)

/-- The value a dict binds to a key, when present.  JSON `null` parses to
Python `None`, which is also what `dict.get` returns for a missing key,
so both are `Json.null` after `dictGet` with a `null` default. -/
def jsonLookup (fields : JObj) (k : String) : Option Json :=
  (fields.find? (fun f => f.1 == k)).map (fun f => f.2)

/-- Embeds `dict.get(k, default)`. -/
def dictGet (fields : JObj) (k : String) (dflt : Json) : Json :=
  (jsonLookup fields k).getD dflt

/-- The exceptions the parser can raise. -/
inductive PyErr where
  | attributeError
  | typeError
deriving DecidableEq

/-- Embeds `v.get(k, default)` on an arbitrary value: only dicts have `.get`;
everything else raises `AttributeError`. -/
def pyGet (v : Json) (k : String) (dflt : Json) : Except PyErr Json :=
  match v with
  | .obj fields => .ok (dictGet fields k dflt)
  | _ => .error .attributeError

/-- Python iteration `for block in v`: lists yield their elements, dicts
their keys, strings their 1-character substrings; other values raise
`TypeError`. -/
def pyIter (v : Json) : Except PyErr (List Json) :=
  match v with
  | .arr elems => .ok elems
  | .obj fields => .ok (fields.map (fun f => Json.str f.1))
  | .str s => .ok (s.data.map (fun c => Json.str (String.mk [c])))
  | _ => .error .typeError

/-- Python `v == "lit"` for a JSON value against a string literal (always
false for non-strings and for `None`). -/
def Json.isStrEq (v : Json) (s : String) : Bool :=
  match v with
  | .str t => t == s
  | _ => false

/-- Embeds `EventType` from `runner.py`. -/
inductive EventType where
  | INIT
  | TEXT_DELTA
  | TOOL_START
  | TOOL_USE
  | TOOL_RESULT
  | RESULT
deriving DecidableEq

/-- The `RunnerEvent` dataclass.  Python performs no runtime type checks,
so the fields hold whatever JSON values the parser extracted; the
defaults mirror the dataclass defaults (`""`, `{}`, `False`, `0`, `0.0`). -/
structure RunnerEvent where
  type : EventType
  text : Json := Json.str ""
  tool_name : Json := Json.str ""
  tool_input : Json := Json.obj []
  is_error : Json := Json.bool false
  session_id : Json := Json.str ""
  duration_ms : Json := Json.num 0
  num_turns : Json := Json.num 0
  cost_usd : Json := Json.num 0

namespace StreamParser

/-- Embeds `StreamParser._parse_system`. -/
def parseSystem (data : JObj) : Option RunnerEvent :=
  if (dictGet data "subtype" Json.null).isStrEq "init" then
    some { type := .INIT, session_id := dictGet data "session_id" (Json.str "") }
  else none

/-- Embeds `StreamParser._parse_stream_event` (`inner = data.get("event", {})` is
referentially transparent and inlined at its use sites). -/
def parseStreamEvent (data : JObj) : Except PyErr (Option RunnerEvent) :=
  match pyGet (dictGet data "event" (Json.obj [])) "type" Json.null with
  | .error e => .error e
  | .ok innerType =>
    if innerType.isStrEq "content_block_delta" then
      match pyGet (dictGet data "event" (Json.obj [])) "delta" (Json.obj []) with
      | .error e => .error e
      | .ok delta =>
        match pyGet delta "type" Json.null with
        | .error e => .error e
        | .ok dType =>
          if dType.isStrEq "text_delta" then
            match pyGet delta "text" (Json.str "") with
            | .error e => .error e
            | .ok t => .ok (some { type := .TEXT_DELTA, text := t })
          else .ok none
    else if innerType.isStrEq "content_block_start" then
      match pyGet (dictGet data "event" (Json.obj [])) "content_block" (Json.obj []) with
      | .error e => .error e
      | .ok block =>
        match pyGet block "type" Json.null with
        | .error e => .error e
        | .ok bType =>
          if bType.isStrEq "tool_use" then
            match pyGet block "name" (Json.str "") with
            | .error e => .error e
            | .ok nm => .ok (some { type := .TOOL_START, tool_name := nm })
          else .ok none
    else .ok none

/-- The scan of `_parse_assistant`: the first content block whose `type`
is `tool_use` yields a TOOL_USE event. -/
def findToolUseBlock : List Json → Except PyErr (Option RunnerEvent)
  | [] => .ok none
  | b :: rest =>
    match pyGet b "type" Json.null with
    | .error e => .error e
    | .ok bType =>
      if bType.isStrEq "tool_use" then
        match pyGet b "name" (Json.str "") with
        | .error e => .error e
        | .ok nm =>
          match pyGet b "input" (Json.obj []) with
          | .error e => .error e
          | .ok inp =>
            .ok (some { type := .TOOL_USE, tool_name := nm, tool_input := inp })
      else findToolUseBlock rest

/-- Embeds `StreamParser._parse_assistant`. -/
def parseAssistant (data : JObj) : Except PyErr (Option RunnerEvent) :=
  match pyGet (dictGet data "message" (Json.obj [])) "content" (Json.arr []) with
  | .error e => .error e
  | .ok content =>
    match pyIter content with
    | .error e => .error e
    | .ok blocks => findToolUseBlock blocks

/-- The scan of `_parse_user`: the first content block whose `type` is
`tool_result` yields a TOOL_RESULT event. -/
def findToolResultBlock : List Json → Except PyErr (Option RunnerEvent)
  | [] => .ok none
  | b :: rest =>
    match pyGet b "type" Json.null with
    | .error e => .error e
    | .ok bType =>
      if bType.isStrEq "tool_result" then
        match pyGet b "content" (Json.str "") with
        | .error e => .error e
        | .ok raw =>
          match pyGet b "is_error" (Json.bool false) with
          | .error e => .error e
          | .ok ie =>
            .ok (some { type := .TOOL_RESULT, text := raw, is_error := ie })
      else findToolResultBlock rest

/-- Embeds `StreamParser._parse_user`. -/
def parseUser (data : JObj) : Except PyErr (Option RunnerEvent) :=
  match pyGet (dictGet data "message" (Json.obj [])) "content" (Json.arr []) with
  | .error e => .error e
  | .ok content =>
    match pyIter content with
    | .error e => .error e
    | .ok blocks => findToolResultBlock blocks

/-- Embeds `StreamParser._parse_result`. -/
def parseResult (data : JObj) : RunnerEvent :=
  { type := .RESULT,
    session_id := dictGet data "session_id" (Json.str ""),
    duration_ms := dictGet data "duration_ms" (Json.num 0),
    num_turns := dictGet data "num_turns" (Json.num 0),
    cost_usd := dictGet data "total_cost_usd" (Json.num 0),
    text := dictGet data "result" (Json.str "") }

/-- Embeds `StreamParser.parse` (`event_type = data.get("type")` is referentially
transparent and inlined at its use sites). -/
def parse (data : JObj) : Except PyErr (Option RunnerEvent) :=
  if (dictGet data "type" Json.null).isStrEq "system" then .ok (parseSystem data)
  else if (dictGet data "type" Json.null).isStrEq "stream_event" then parseStreamEvent data
  else if (dictGet data "type" Json.null).isStrEq "assistant" then parseAssistant data
  else if (dictGet data "type" Json.null).isStrEq "user" then parseUser data
  else if (dictGet data "type" Json.null).isStrEq "result" then .ok (some (parseResult data))
  else .ok none

end StreamParser

/-- A JSON value that is an object. -/
def Json.isObjB : Json → Bool
  | .obj _ => true
  | _ => false

/-- Well-shaped records (the amendment of C2): wherever the parser drills
into a nested container, that container has the expected type — for
stream_event records the `event` value and its `delta` and
`content_block` values are objects; for assistant/user records the
`message` value is an object and its `content` a list of objects. -/
def wellShaped (data : JObj) : Bool :=
  if (dictGet data "type" Json.null).isStrEq "stream_event" then
    match dictGet data "event" (Json.obj []) with
    | .obj infs =>
      (dictGet infs "delta" (Json.obj [])).isObjB &&
      (dictGet infs "content_block" (Json.obj [])).isObjB
    | _ => false
  else if (dictGet data "type" Json.null).isStrEq "assistant" ||
      (dictGet data "type" Json.null).isStrEq "user" then
    match dictGet data "message" (Json.obj []) with
    | .obj mfs =>
      match dictGet mfs "content" (Json.arr []) with
      | .arr blocks => blocks.all Json.isObjB
      | _ => false
    | _ => false
  else true

/-- Field access on a value known (or defaulted) to be an object, used by
the specification-side table below. -/
def objGetD (v : Json) (k : String) (dflt : Json) : Json :=
  match v with
  | .obj fs => dictGet fs k dflt
  | _ => dflt

/-- The content blocks of an assistant/user record, specification side. -/
def contentList (data : JObj) : List Json :=
  match objGetD (dictGet data "message" (Json.obj [])) "content" (Json.arr []) with
  | .arr blocks => blocks
  | _ => []

/-- The first content block carrying the given `type` tag, specification
side. -/
def specFirstWith (blocks : List Json) (tagVal : String) : Option Json :=
  blocks.find? (fun b => (objGetD b "type" Json.null).isStrEq tagVal)

/-- Table row (§4.1): `type=system, subtype=init` maps to INIT with the
record's `session_id` (missing: empty string). -/
def specRowInit (data : JObj) (ev : RunnerEvent) : Prop :=
  (dictGet data "type" Json.null).isStrEq "system" = true ∧
  (dictGet data "subtype" Json.null).isStrEq "init" = true ∧
  ev = { type := .INIT, session_id := dictGet data "session_id" (Json.str "") }

/-- Table row (§4.1): `type=stream_event, event.type=content_block_delta,
delta.type=text_delta` maps to TEXT_DELTA with the delta text (missing:
empty string). -/
def specRowTextDelta (data : JObj) (ev : RunnerEvent) : Prop :=
  (dictGet data "type" Json.null).isStrEq "stream_event" = true ∧
  (objGetD (dictGet data "event" (Json.obj [])) "type" Json.null).isStrEq
      "content_block_delta" = true ∧
  (objGetD (objGetD (dictGet data "event" (Json.obj [])) "delta" (Json.obj []))
      "type" Json.null).isStrEq "text_delta" = true ∧
  ev = { type := .TEXT_DELTA,
         text := objGetD (objGetD (dictGet data "event" (Json.obj [])) "delta"
           (Json.obj [])) "text" (Json.str "") }

/-- Table row (§4.1): `type=stream_event, event.type=content_block_start,
content_block.type=tool_use` maps to TOOL_START with the tool name. -/
def specRowToolStart (data : JObj) (ev : RunnerEvent) : Prop :=
  (dictGet data "type" Json.null).isStrEq "stream_event" = true ∧
  (objGetD (dictGet data "event" (Json.obj [])) "type" Json.null).isStrEq
      "content_block_start" = true ∧
  (objGetD (objGetD (dictGet data "event" (Json.obj [])) "content_block"
      (Json.obj [])) "type" Json.null).isStrEq "tool_use" = true ∧
  ev = { type := .TOOL_START,
         tool_name := objGetD (objGetD (dictGet data "event" (Json.obj []))
           "content_block" (Json.obj [])) "name" (Json.str "") }

/-- Table row (§4.1): `type=assistant`, first content block with
`type=tool_use` maps to TOOL_USE with name and input mapping. -/
def specRowToolUse (data : JObj) (ev : RunnerEvent) : Prop :=
  (dictGet data "type" Json.null).isStrEq "assistant" = true ∧
  ∃ b, specFirstWith (contentList data) "tool_use" = some b ∧
    ev = { type := .TOOL_USE,
           tool_name := objGetD b "name" (Json.str ""),
           tool_input := objGetD b "input" (Json.obj []) }

/-- Table row (§4.1): `type=user`, first content block with
`type=tool_result` maps to TOOL_RESULT with its content and `is_error`
flag. -/
def specRowToolResult (data : JObj) (ev : RunnerEvent) : Prop :=
  (dictGet data "type" Json.null).isStrEq "user" = true ∧
  ∃ b, specFirstWith (contentList data) "tool_result" = some b ∧
    ev = { type := .TOOL_RESULT,
           text := objGetD b "content" (Json.str ""),
           is_error := objGetD b "is_error" (Json.bool false) }

/-- Table row (§4.1): `type=result` maps to RESULT with session_id,
duration_ms, num_turns, total_cost_usd and the result text. -/
def specRowResult (data : JObj) (ev : RunnerEvent) : Prop :=
  (dictGet data "type" Json.null).isStrEq "result" = true ∧
  ev = { type := .RESULT,
         session_id := dictGet data "session_id" (Json.str ""),
         duration_ms := dictGet data "duration_ms" (Json.num 0),
         num_turns := dictGet data "num_turns" (Json.num 0),
         cost_usd := dictGet data "total_cost_usd" (Json.num 0),
         text := dictGet data "result" (Json.str "") }

/-- The §4.1 mapping table: an emitted event matches one of its rows. -/
def MatchesTable (data : JObj) (ev : RunnerEvent) : Prop :=
  specRowInit data ev ∨ specRowTextDelta data ev ∨ specRowToolStart data ev ∨
  specRowToolUse data ev ∨ specRowToolResult data ev ∨ specRowResult data ev

/-! ## Runner event queue (C7) -/

/-- An item of `ClaudeRunner._event_queue`: a parsed `RunnerEvent`, the
`_EOF{stderr, returncode}` sentinel, or the `_Error{message}` sentinel. -/
inductive QueueItem where
  | event (e : RunnerEvent)
  | eof (stderr : String) (returncode : Int)
  | readerError (message : String)

/-- Embeds `isinstance(item, _EOF)`. -/
def QueueItem.isEOF : QueueItem → Bool
  | .eof _ _ => true
  | _ => false

/-- Embeds `ClaudeRunner._drain_pending`: pop and discard queued items until the
queue is empty; a popped `_EOF` sentinel is put back at the tail
(`put` appends) and draining stops. -/
def drainPending : List QueueItem → List QueueItem
  | [] => []
  | i :: rest =>
    match i with
    | .eof s c => rest ++ [QueueItem.eof s c]
    | _ => drainPending rest

/-! ## Turn coordinator — `bot.py`, class `ClaudeTelegramBot` -/

/-- An outward action of `_process_buffer`: a plain chat message, the
creation and start of a renderer, or a call to `runner.run`. -/
inductive CoordAct where
  | sendMessage (text : String)
  | streamStart
  | runPrompt (prompt : String)
deriving DecidableEq

/-- The coordinator state: the debounce buffers, the runner's session id
and busy flag, the cost accumulator, and the activity clock
(`SESSION_TIMEOUT` defaults to 3600 s). -/
structure Coordinator where
  buffer : List String := []
  bufferPhotos : List String := []
  bufferDocs : List String := []
  sessionId : Option String := none
  runnerRunning : Bool := false
  sessionCost : ℚ := 0
  lastActivity : Int := 0
  sessionTimeout : Int := 3600

/-- Modelled from the spec: `runner.is_running` — `bot.py` gates flushes
on `self.runner.is_running`, but the `ClaudeRunner` class in the provided
sources defines no such attribute (only `is_processing` and
`process_alive`); the specification's single-turn gate reads "while
`runner.is_running`, any flush of the Coordinator buffer produces no call
to `runner.run`", so it is modelled as the flag that is true exactly
while a turn is active. -/
def Coordinator.isRunning (st : Coordinator) : Bool := st.runnerRunning

/-- The busy message sent by the single-turn gate. -/
def busyText : String := "⚠️ Claude is busy. Use /cancel first."

/-- Embeds `"\n".join(self._buffer)`. -/
def joinBuffer (texts : List String) : String := String.intercalate "\n" texts

/-- Embeds `MediaHandler.build_prompt`: line-separated preambles for each photo
and document, then the user text. -/
def buildPrompt (text : String) (photoPaths docPaths : List String) : String :=
  let parts :=
    photoPaths.map (fun p => "[User sent a photo: " ++ p ++ "]") ++
    docPaths.map (fun p => "[User sent a file: " ++ p ++ "]") ++
    (if text ≠ "" then [text] else [])
  if parts ≠ [] then String.intercalate "\n" parts else text

/-- Embeds `ClaudeTelegramBot._check_session_timeout` (the media cleanup has no
state in this model). -/
def Coordinator.checkSessionTimeout (st : Coordinator) (now : Int) : Coordinator :=
  if st.sessionId.isSome ∧ now - st.lastActivity > st.sessionTimeout then
    { st with sessionId := none, sessionCost := 0 }
  else st

/-- Embeds `ClaudeTelegramBot._process_buffer`, up to the start of the event
loop: snapshot and clear the buffers, return early when everything is
empty, apply the session-timeout check and touch the activity clock, and
either report busy (dropping the snapshot) or create/start a renderer and
call `runner.run` on the composed prompt. -/
def Coordinator.processBuffer (st : Coordinator) (now : Int) :
    Coordinator × List CoordAct :=
  let text := joinBuffer st.buffer
  let photos := st.bufferPhotos
  let docs := st.bufferDocs
  let st0 := { st with buffer := [], bufferPhotos := [], bufferDocs := [] }
  if text = "" ∧ photos = [] ∧ docs = [] then (st0, [])
  else
    let st1 := st0.checkSessionTimeout now
    let st2 := { st1 with lastActivity := now }
    if st2.isRunning then (st2, [CoordAct.sendMessage busyText])
    else (st2, [CoordAct.streamStart, CoordAct.runPrompt (buildPrompt text photos docs)])

/-- The RESULT branch of `_process_buffer`'s event loop:
`self._session_cost += event.cost_usd`. -/
def Coordinator.applyResultCost (st : Coordinator) (costUsd : ℚ) : Coordinator :=
  { st with sessionCost := st.sessionCost + costUsd }

/-- The session cost held by the coordinator after receiving the given
sequence of RESULT `cost_usd` values, starting from a fresh state. -/
def sessionCostAfterResults (costs : List ℚ) : ℚ :=
  (costs.foldl Coordinator.applyResultCost {}).sessionCost

theorem lastNewlineIdx_lt_length {l : Str} {i : Nat}
    (h : lastNewlineIdx l = some i) : i < l.length := by
  induction l generalizing i with
  | nil => simp [lastNewlineIdx] at h
  | cons c rest ih =>
    simp only [lastNewlineIdx] at h
    cases hrest : lastNewlineIdx rest with
    | some j =>
      rw [hrest] at h
      cases h
      have := ih hrest
      simpa using Nat.succ_lt_succ this
    | none =>
      rw [hrest] at h
      by_cases hc : c = '\n'
      · simp [hc] at h
        cases h
        simp
      · simp [hc] at h

theorem specSplitPos_le (maxLen : Nat) (cur : Str) :
    specSplitPos maxLen cur ≤ maxLen := by
  unfold specSplitPos
  cases h : lastNewlineIdx (cur.take maxLen) with
  | none => simp
  | some i =>
    have hlt : i < (cur.take maxLen).length := lastNewlineIdx_lt_length h
    have : i < maxLen := lt_of_lt_of_le hlt (by simp [List.length_take_le])
    by_cases hc : i < maxLen / 2
    · simp [hc]
    · simp only [hc, if_false, reduceIte]
      omega

theorem completeCurrent_eq_of_le {ch : MessageChain}
    (h : ch.current.length ≤ ch.maxLength) :
    ch.completeCurrent =
      (ch.current, { ch with chunks := ch.chunks ++ [ch.current], current := [] }) := by
  unfold MessageChain.completeCurrent
  simp [h]

theorem completeCurrent_eq_of_gt {ch : MessageChain}
    (h : ¬ ch.current.length ≤ ch.maxLength) :
    ch.completeCurrent =
      (ch.current.take (specSplitPos ch.maxLength ch.current),
        { ch with
            chunks := ch.chunks ++ [ch.current.take (specSplitPos ch.maxLength ch.current)],
            current := (ch.current.drop (specSplitPos ch.maxLength ch.current)).dropWhile
              (· == '\n') }) := by
  unfold MessageChain.completeCurrent specSplitPos
  simp [h]

/-- Claim C5: on any buffer state, `complete_current` freezes exactly the
chunk the specification describes (whole buffer when it fits; otherwise
prefix up to the last newline of `current[0:max_length]`, hard cut at
`max_length` when that newline sits below `max_length/2`); the remaining
buffer is the suffix with leading newlines stripped, the chunk is appended
to the completed list, and the frozen chunk's length is at most
`max_length`. -/
theorem completeCurrent_follows_spec (ch : MessageChain) :
    ch.completeCurrent.1 = specFrozenChunk ch.maxLength ch.current ∧
    ch.completeCurrent.2.current = specRemainder ch.maxLength ch.current ∧
    ch.completeCurrent.2.chunks = ch.chunks ++ [ch.completeCurrent.1] ∧
    ch.completeCurrent.1.length ≤ ch.maxLength := by
  by_cases hle : ch.current.length ≤ ch.maxLength
  · rw [completeCurrent_eq_of_le hle]
    simp [specFrozenChunk, specRemainder, hle]
  · rw [completeCurrent_eq_of_gt hle]
    refine ⟨by simp [specFrozenChunk, hle], by simp [specRemainder, hle], rfl, ?_⟩
    calc (ch.current.take (specSplitPos ch.maxLength ch.current)).length
        ≤ specSplitPos ch.maxLength ch.current := by
          simp [List.length_take_le]
      _ ≤ ch.maxLength := specSplitPos_le _ _

theorem length_dropWhile_le (p : Char → Bool) (l : Str) :
    (l.dropWhile p).length ≤ l.length := by
  induction l with
  | nil => simp
  | cons c rest ih =>
    by_cases hc : p c
    · simp only [List.dropWhile_cons, hc]
      exact le_trans ih (by simp)
    · simp [List.dropWhile_cons, hc]

/-- Claim C4 (amended): after `complete_current` the remaining buffer is
either empty (the whole buffer fitted) or shorter than before by at least
`max_length / 2`; the `len(current) ≤ max_length` bound claimed by the
specification does not hold in general (see the counterexample). -/
theorem completeCurrent_shrinks (ch : MessageChain) :
    ch.completeCurrent.2.current = [] ∨
    ch.completeCurrent.2.current.length + ch.maxLength / 2 ≤ ch.current.length := by
  by_cases hle : ch.current.length ≤ ch.maxLength
  · rw [completeCurrent_eq_of_le hle]
    left
    rfl
  · right
    rw [completeCurrent_eq_of_gt hle]
    dsimp only
    have h1 : ((ch.current.drop (specSplitPos ch.maxLength ch.current)).dropWhile
        (· == '\n')).length ≤ ch.current.length - specSplitPos ch.maxLength ch.current := by
      calc ((ch.current.drop (specSplitPos ch.maxLength ch.current)).dropWhile
            (· == '\n')).length
          ≤ (ch.current.drop (specSplitPos ch.maxLength ch.current)).length :=
            length_dropWhile_le _ _
        _ = ch.current.length - specSplitPos ch.maxLength ch.current := by
            simp [List.length_drop]
    have h2 : ch.maxLength / 2 ≤ specSplitPos ch.maxLength ch.current := by
      unfold specSplitPos
      cases hn : lastNewlineIdx (ch.current.take ch.maxLength) with
      | none => simp [Nat.div_le_self]
      | some i =>
        by_cases hc : i < ch.maxLength / 2
        · simp [hc, Nat.div_le_self]
        · simp only [hc, if_false, reduceIte]
          omega
    have h3 : specSplitPos ch.maxLength ch.current ≤ ch.current.length :=
      le_trans (specSplitPos_le _ _) (le_of_not_le hle)
    omega

/-- Claim C4, counterexample: with `max_length = 4`, appending ten `a`s and
calling `complete_current` leaves a current buffer of length 6 > 4. -/
theorem chain_current_bound_counterexample :
    ¬ ((MessageChain.completeCurrent
        (MessageChain.appendText { maxLength := 4 } (List.replicate 10 'a'))).2.current.length
      ≤ 4) := by decide

/-! ## Chain text preservation (C6) -/

theorem bumpLast_cons {ns : List Nat} (n : Nat) (h : ns ≠ []) :
    bumpLast (n :: ns) = n :: bumpLast ns := by
  cases ns with
  | nil => exact absurd rfl h
  | cons m rest => rfl

theorem bumpLast_length (ns : List Nat) : (bumpLast ns).length = ns.length := by
  induction ns with
  | nil => rfl
  | cons n rest ih =>
    cases rest with
    | nil => rfl
    | cons m rest2 =>
      rw [bumpLast_cons n (by simp)]
      simp only [List.length_cons]
      rw [ih]
      simp

theorem joinChunks_append_single (cs : List Str) (ns : List Nat) (c : Str) (n : Nat)
    (h : ns.length = cs.length) :
    joinChunks (cs ++ [c]) (ns ++ [n]) =
      joinChunks cs ns ++ c ++ List.replicate n '\n' := by
  induction cs generalizing ns with
  | nil =>
    cases ns with
    | nil => simp [joinChunks]
    | cons m rest => simp at h
  | cons c0 cs' ih =>
    cases ns with
    | nil => simp at h
    | cons m rest =>
      simp only [List.length_cons] at h
      simp [joinChunks, ih rest (by omega), List.append_assoc]

theorem joinChunks_bumpLast (cs : List Str) (ns : List Nat)
    (h : ns.length = cs.length) (hne : cs ≠ []) :
    joinChunks cs (bumpLast ns) = joinChunks cs ns ++ ['\n'] := by
  induction cs generalizing ns with
  | nil => exact absurd rfl hne
  | cons c0 cs' ih =>
    cases ns with
    | nil => simp at h
    | cons m rest =>
      simp only [List.length_cons] at h
      cases cs' with
      | nil =>
        have h0 : rest.length = 0 := by simpa using h
        have : rest = [] := List.length_eq_zero.mp h0
        subst this
        simp [bumpLast, joinChunks, List.replicate_succ']
      | cons c1 cs2 =>
        have hrest : rest ≠ [] := by
          intro h0
          subst h0
          simp at h
        rw [bumpLast_cons m hrest]
        simp [joinChunks, ih rest (by omega) (by simp), List.append_assoc]

theorem takeWhile_newline_eq_replicate (l : Str) :
    ∃ j, l.takeWhile (· == '\n') = List.replicate j '\n' := by
  induction l with
  | nil => exact ⟨0, rfl⟩
  | cons c rest ih =>
    by_cases hc : c = '\n'
    · obtain ⟨j, hj⟩ := ih
      refine ⟨j + 1, ?_⟩
      subst hc
      simp [List.takeWhile_cons, hj, List.replicate_succ]
    · refine ⟨0, ?_⟩
      have : (c == '\n') = false := by
        simpa using hc
      simp [List.takeWhile_cons, this]

theorem appendToolCall_eq (ch : MessageChain) (line : Str) :
    ch.appendToolCall line =
      { ch with current := padIfNeeded ch.current ++ line ++ ['\n'] } := rfl

theorem padIfNeeded_nil : padIfNeeded [] = [] := rfl

theorem padIfNeeded_append (J cur : Str) (h : cur ≠ []) :
    padIfNeeded (J ++ cur) = J ++ padIfNeeded cur := by
  have hne : J ++ cur ≠ [] := by
    intro h0
    exact h (List.append_eq_nil.mp h0).2
  have hlast : (J ++ cur).getLast? = cur.getLast? :=
    List.getLast?_append_of_ne_nil J h
  by_cases hc : cur.getLast? = some '\n'
  · simp [padIfNeeded, hne, hlast, hc, h]
  · simp [padIfNeeded, hne, hlast, hc, h, List.append_assoc]

theorem padIfNeeded_of_last_newline {J : Str} (h : J.getLast? = some '\n') :
    padIfNeeded J = J := by
  simp [padIfNeeded, h]

theorem padIfNeeded_of_last_not_newline {J : Str} (h0 : J ≠ [])
    (h : J.getLast? ≠ some '\n') : padIfNeeded J = J ++ ['\n'] := by
  simp [padIfNeeded, h0, h]

theorem chainInv_applyOp {ch : MessageChain} {acc : Str} (op : ChainOp)
    (h : ChainInv ch acc) : ChainInv (applyOp ch op) (stepInput acc op) := by
  obtain ⟨ns, hlen, hacc⟩ := h
  cases op with
  | text s =>
    exact ⟨ns, hlen, by simp [applyOp, MessageChain.appendText, stepInput, hacc]⟩
  | toolCall line =>
    by_cases hcur : ch.current = []
    · have haccJ : acc = joinChunks ch.chunks ns := by
        rw [hacc, hcur, List.append_nil]
      by_cases hacc0 : acc = []
      · refine ⟨ns, hlen, ?_⟩
        simp only [applyOp, appendToolCall_eq, stepInput, hcur, padIfNeeded_nil]
        rw [hacc0, padIfNeeded_nil, ← haccJ, hacc0]
        simp
      · by_cases hlast : acc.getLast? = some '\n'
        · refine ⟨ns, hlen, ?_⟩
          simp only [applyOp, appendToolCall_eq, stepInput, hcur, padIfNeeded_nil]
          rw [padIfNeeded_of_last_newline hlast, haccJ]
          simp
        · have hchunks : ch.chunks ≠ [] := by
            intro h0
            apply hacc0
            have hns : ns = [] := by
              rw [h0] at hlen
              exact List.length_eq_zero.mp hlen
            rw [haccJ, h0, hns]
            rfl
          refine ⟨bumpLast ns, by rw [bumpLast_length]; exact hlen, ?_⟩
          simp only [applyOp, appendToolCall_eq, stepInput, hcur, padIfNeeded_nil]
          rw [padIfNeeded_of_last_not_newline hacc0 hlast,
            joinChunks_bumpLast ch.chunks ns hlen hchunks, haccJ]
          simp
    · refine ⟨ns, hlen, ?_⟩
      simp only [applyOp, appendToolCall_eq, stepInput]
      rw [hacc, padIfNeeded_append _ _ hcur]
      simp [List.append_assoc]
  | complete =>
    by_cases hle : ch.current.length ≤ ch.maxLength
    · refine ⟨ns ++ [0], ?_, ?_⟩
      · simp [applyOp, completeCurrent_eq_of_le hle, hlen]
      · simp only [applyOp, completeCurrent_eq_of_le hle, stepInput]
        rw [joinChunks_append_single ch.chunks ns ch.current 0 hlen]
        simp [hacc]
    · obtain ⟨j, hj⟩ :=
        takeWhile_newline_eq_replicate (ch.current.drop (specSplitPos ch.maxLength ch.current))
      refine ⟨ns ++ [j], ?_, ?_⟩
      · simp [applyOp, completeCurrent_eq_of_gt hle, hlen]
      · simp only [applyOp, completeCurrent_eq_of_gt hle, stepInput]
        rw [joinChunks_append_single ch.chunks ns _ j hlen]
        have hdecomp : ch.current =
            ch.current.take (specSplitPos ch.maxLength ch.current) ++
              (List.replicate j '\n' ++
                (ch.current.drop (specSplitPos ch.maxLength ch.current)).dropWhile
                  (· == '\n')) := by
          conv_lhs =>
            rw [← List.take_append_drop (specSplitPos ch.maxLength ch.current) ch.current]
          rw [← hj]
          rw [List.takeWhile_append_dropWhile]
        rw [hacc]
        conv_lhs => rw [hdecomp]
        simp [List.append_assoc]

theorem chainInv_runOps (ops : List ChainOp) (ch : MessageChain) (acc : Str)
    (h : ChainInv ch acc) : ChainInv (runOps ch ops) (ops.foldl stepInput acc) := by
  induction ops generalizing ch acc with
  | nil => exact h
  | cons op rest ih => exact ih _ _ (chainInv_applyOp op h)

/-- Claim C6: for every sequence of `append_text`, `append_tool_call` and
`complete_current` calls, the concatenation of the completed chunks
followed by the current buffer equals the concatenation of all appended
inputs (with the tool-call newline padding rule applied), modulo runs of
newlines trimmed at each chunk boundary: there are counts `ns` such that
re-inserting `ns i` newlines after chunk `i` reconstructs the padded
input exactly. -/
theorem chain_text_preservation (maxLen : Nat) (ops : List ChainOp) :
    ∃ ns : List Nat,
      ns.length = (runOps { maxLength := maxLen } ops).chunks.length ∧
      paddedInput ops =
        joinChunks (runOps { maxLength := maxLen } ops).chunks ns ++
          (runOps { maxLength := maxLen } ops).current :=
  chainInv_runOps ops { maxLength := maxLen } [] ⟨[], rfl, rfl⟩

/-! ## Renderer finalization and edits (C8, C9, C10) -/

theorem finalize_state (st : TelegramStream) (footer : Str) (cancelled : Bool) :
    (st.finalize footer cancelled).1 =
      { st with chain := st.finalizeChain footer cancelled } := by
  unfold TelegramStream.finalize
  cases st.currentMsg with
  | none => rfl
  | some m =>
    dsimp only
    split
    · rfl
    · rfl

/-- Claim C10: when the text `finalize` would render is empty or
whitespace-only (for example because no events arrived after `start`),
`finalize` performs no platform edit at all, and the current and first
message handles — the "⏳ Thinking..." placeholder with its cancel
keyboard — are left untouched. -/
theorem finalize_blank_no_edit (st : TelegramStream) (footer : Str) (cancelled : Bool)
    (h : pyStrip (st.finalizeChain footer cancelled).render = []) :
    (st.finalize footer cancelled).2 = [] ∧
    (st.finalize footer cancelled).1.currentMsg = st.currentMsg ∧
    (st.finalize footer cancelled).1.firstMsg = st.firstMsg := by
  unfold TelegramStream.finalize
  cases hm : st.currentMsg with
  | none => exact ⟨rfl, by simp [hm], rfl⟩
  | some m =>
    dsimp only
    rw [if_neg (by simp [h])]
    exact ⟨rfl, by simp [hm], rfl⟩

/-- Witness for C10: a renderer straight after `start` (no events) renders
blank, and `finalize` with no footer produces no platform call. -/
theorem finalize_blank_no_edit_witness :
    pyStrip ((TelegramStream.start {}).1.finalizeChain [] false).render = [] ∧
    ((TelegramStream.start {}).1.finalize [] false).2 = [] :=
  ⟨rfl, (finalize_blank_no_edit (TelegramStream.start {}).1 [] false rfl).1⟩

/-- Claim C8, counterexample: after `finalize` performed its final edit
(keyboard removed), a later `push_text` — once the update interval has
elapsed — performs a further platform edit of the finalized message,
with the keyboard re-attached: pushes after `finalize` are not ignored. -/
theorem push_after_finalize_counterexample :
    (((TelegramStream.start {}).1.pushText 0 ("hello".data)).1.finalize [] false).2 =
      [TgEff.edit 1 ("hello".data) false] ∧
    ((((TelegramStream.start {}).1.pushText 0 ("hello".data)).1.finalize
        [] false).1.pushText 10 ("X".data)).2 =
      [TgEff.edit 1 ("helloX".data) true] := by
  constructor
  · rfl
  · rfl

/-- Claim C8 (amended): `finalize` installs no guard against later pushes.
After `finalize`, a `push_text` whose appended chain does not overflow and
renders non-blank performs a further platform edit (keyboard re-attached)
as soon as the update interval has elapsed; pushes are absent after
`finalize` only because the Coordinator's event loop ends at RESULT. -/
theorem push_after_finalize_edits (st : TelegramStream) (footer : Str) (m : Nat)
    (now : Int) (s : Str)
    (hm : st.currentMsg = some m)
    (ht : st.updateInterval ≤ now - st.lastUpdate)
    (hneed : ((st.finalizeChain footer false).appendText s).needsNewMessage = false)
    (hdisp : pyStrip ((st.finalizeChain footer false).appendText s).render ≠ []) :
    ((st.finalize footer false).1.pushText now s).2 =
      [TgEff.edit m ((st.finalizeChain footer false).appendText s).render true] := by
  rw [finalize_state st footer false]
  have hnotlt : ¬ (now - st.lastUpdate < st.updateInterval) := not_lt.mpr ht
  simp only [TelegramStream.pushText, TelegramStream.maybeUpdate]
  rw [if_neg hnotlt]
  simp only [TelegramStream.flush, hm]
  rw [if_pos trivial, if_neg (by simp [hneed]), if_pos hdisp]

/-- Witness for the amended C8: a concrete renderer, finalized after one
push, accepts a later push that edits the finalized message again. -/
theorem push_after_finalize_edits_witness :
    (((TelegramStream.start {}).1.pushText 0 ("hello".data)).1.currentMsg = some 1) ∧
    (((((TelegramStream.start {}).1.pushText 0 ("hello".data)).1.finalize
        [] false).1.pushText 10 ("Y".data)).2 =
      [TgEff.edit 1
        ((((TelegramStream.start {}).1.pushText 0 ("hello".data)).1.finalizeChain
            [] false).appendText ("Y".data)).render true]) :=
  ⟨rfl,
    push_after_finalize_edits
      ((TelegramStream.start {}).1.pushText 0 ("hello".data)).1 [] 1 10 ("Y".data)
      rfl (by decide) rfl (by decide)⟩

/-- Claim C9, counterexample: a `BadRequest` from the HTML edit that is
not "message is not modified" triggers the plain-text retry; when that
retry fails with a non-`BadRequest` error (e.g. a network timeout), the
error propagates out of `_edit_message` — the Renderer can throw. -/
theorem edit_error_propagates_counterexample :
    editMessageOutcome (EditAttempt.badRequest ("cannot parse entities".data))
      (EditAttempt.otherError ("timed out".data)) = some ("timed out".data) := by
  rfl

/-- Claim C9 (amended): an exception escapes `_edit_message` exactly when
the HTML edit raises a `BadRequest` that is not "message is not modified"
and the plain-text retry then raises a non-`BadRequest` error.  In every
other case — success, "message is not modified", a non-`BadRequest`
failure of the HTML edit, or any `BadRequest` of the retry — the error is
swallowed and nothing propagates into the Coordinator. -/
theorem edit_error_propagation_characterization (h p : EditAttempt) :
    (∃ e, editMessageOutcome h p = some e) ↔
      (∃ m e, h = EditAttempt.badRequest m ∧
        containsSub notModifiedMarker (toLowerStr m) = false ∧
        p = EditAttempt.otherError e) := by
  cases h with
  | ok => simp [editMessageOutcome]
  | otherError m => simp [editMessageOutcome]
  | badRequest m =>
    by_cases hc : containsSub notModifiedMarker (toLowerStr m) = true
    · simp [editMessageOutcome, hc]
    · have hc' : containsSub notModifiedMarker (toLowerStr m) = false :=
        Bool.not_eq_true _ ▸ (by simpa using hc)
      cases p with
      | ok => simp [editMessageOutcome, hc']
      | badRequest m2 => simp [editMessageOutcome, hc']
      | otherError e => simp [editMessageOutcome, hc']

/-! ## Single-turn gate (C1) and cost accumulation (C3) -/

theorem checkSessionTimeout_preserves_running (st : Coordinator) (now : Int) :
    (st.checkSessionTimeout now).runnerRunning = st.runnerRunning := by
  unfold Coordinator.checkSessionTimeout
  split
  · rfl
  · rfl

theorem checkSessionTimeout_preserves_buffers (st : Coordinator) (now : Int) :
    (st.checkSessionTimeout now).buffer = st.buffer ∧
    (st.checkSessionTimeout now).bufferPhotos = st.bufferPhotos ∧
    (st.checkSessionTimeout now).bufferDocs = st.bufferDocs := by
  unfold Coordinator.checkSessionTimeout
  split
  · exact ⟨rfl, rfl, rfl⟩
  · exact ⟨rfl, rfl, rfl⟩

/-- Claim C1: when a flush of the Coordinator buffer fires while a turn is
active (`runner.is_running`) and the snapshot is non-empty, the flush
makes no call to `runner.run`: the only action is a chat message carrying
"Claude is busy. Use /cancel first.", and the snapshotted buffer contents
are dropped (all three buffers are left cleared). -/
theorem turn_gate (st : Coordinator) (now : Int)
    (hrun : st.isRunning = true)
    (hne : ¬ (joinBuffer st.buffer = "" ∧ st.bufferPhotos = [] ∧ st.bufferDocs = [])) :
    (st.processBuffer now).2 = [CoordAct.sendMessage busyText] ∧
    containsSub ("Claude is busy. Use /cancel first.".data) (busyText.data) = true ∧
    (∀ p, CoordAct.runPrompt p ∉ (st.processBuffer now).2) ∧
    (st.processBuffer now).1.buffer = [] ∧
    (st.processBuffer now).1.bufferPhotos = [] ∧
    (st.processBuffer now).1.bufferDocs = [] := by
  unfold Coordinator.processBuffer
  rw [if_neg hne]
  have hrun2 : ({ ({ st with buffer := [], bufferPhotos := [], bufferDocs := []}
      : Coordinator).checkSessionTimeout now with lastActivity := now }
      : Coordinator).isRunning = true := by
    unfold Coordinator.isRunning
    show (Coordinator.checkSessionTimeout _ now).runnerRunning = true
    rw [checkSessionTimeout_preserves_running]
    exact hrun
  rw [if_pos hrun2]
  refine ⟨rfl, by decide, ?_, ?_, ?_, ?_⟩
  · intro p hp
    simp at hp
  · obtain ⟨h1, -, -⟩ := checkSessionTimeout_preserves_buffers
      ({ st with buffer := [], bufferPhotos := [], bufferDocs := [] } : Coordinator) now
    exact h1
  · obtain ⟨-, h2, -⟩ := checkSessionTimeout_preserves_buffers
      ({ st with buffer := [], bufferPhotos := [], bufferDocs := [] } : Coordinator) now
    exact h2
  · obtain ⟨-, -, h3⟩ := checkSessionTimeout_preserves_buffers
      ({ st with buffer := [], bufferPhotos := [], bufferDocs := [] } : Coordinator) now
    exact h3

/-- Witness for C1: a concrete busy coordinator holding one buffered text
flushes into exactly the busy message and cleared buffers. -/
theorem turn_gate_witness :
    (({ buffer := ["hi"], runnerRunning := true } : Coordinator).isRunning = true) ∧
    ¬ (joinBuffer ["hi"] = "" ∧ ([] : List String) = [] ∧ ([] : List String) = []) ∧
    (({ buffer := ["hi"], runnerRunning := true } : Coordinator).processBuffer 0).2 =
      [CoordAct.sendMessage busyText] :=
  ⟨rfl, by decide,
    (turn_gate { buffer := ["hi"], runnerRunning := true } 0 rfl (by decide)).1⟩

/-- Claim C3 (code behaviour at the failing input): after RESULT events
carrying `total_cost_usd` 0.05 and then 0.07, the coordinator's
accumulated `session_cost` is their sum 0.12, not the last value 0.07 as
the claim (and the specification's "last value wins" contract) requires. -/
theorem session_cost_sums_not_last :
    sessionCostAfterResults [1/20, 7/100] = 3/25 ∧
    sessionCostAfterResults [1/20, 7/100] ≠ 7/100 := by
  constructor
  · unfold sessionCostAfterResults Coordinator.applyResultCost
    norm_num
  · unfold sessionCostAfterResults Coordinator.applyResultCost
    norm_num

/-! ## EOF preservation on drain (C7) -/

/-- Claim C7: when `_drain_pending` runs on a queue whose items before the
EOF sentinel are all non-EOF (the only queues the background reader can
produce: it enqueues the sentinel last and exits), the drain leaves
exactly that EOF sentinel in the queue and nothing else, so the next
`_read_until_result` observes the child's death and no stale events leak
into the next turn. -/
theorem drain_preserves_eof (pre : List QueueItem) (s : String) (c : Int)
    (hpre : ∀ x ∈ pre, x.isEOF = false) :
    drainPending (pre ++ [QueueItem.eof s c]) = [QueueItem.eof s c] := by
  induction pre with
  | nil => rfl
  | cons i rest ih =>
    have hi : i.isEOF = false := hpre i (by simp)
    have hrest : ∀ x ∈ rest, x.isEOF = false := fun x hx => hpre x (by simp [hx])
    cases i with
    | eof s2 c2 => simp [QueueItem.isEOF] at hi
    | event e =>
      show drainPending (rest ++ [QueueItem.eof s c]) = [QueueItem.eof s c]
      exact ih hrest
    | readerError m =>
      show drainPending (rest ++ [QueueItem.eof s c]) = [QueueItem.eof s c]
      exact ih hrest

/-! ## Parser totality and the §4.1 table (C2) -/

theorem isObjB_exists : ∀ {v : Json}, v.isObjB = true → ∃ fs, v = Json.obj fs
  | .obj fs, _ => ⟨fs, rfl⟩

theorem findToolUseBlock_all_obj (blocks : List Json)
    (h : blocks.all Json.isObjB = true) :
    StreamParser.findToolUseBlock blocks = .ok
      ((specFirstWith blocks "tool_use").map (fun b =>
        { type := EventType.TOOL_USE,
          tool_name := objGetD b "name" (Json.str ""),
          tool_input := objGetD b "input" (Json.obj []) })) := by
  induction blocks with
  | nil => rfl
  | cons b rest ih =>
    rw [List.all_cons, Bool.and_eq_true] at h
    obtain ⟨fs, rfl⟩ := isObjB_exists h.1
    by_cases ht : (dictGet fs "type" Json.null).isStrEq "tool_use" = true
    · simp [StreamParser.findToolUseBlock, pyGet, specFirstWith, objGetD, ht]
    · simp [StreamParser.findToolUseBlock, pyGet, specFirstWith, objGetD, ht, ih h.2]

theorem findToolResultBlock_all_obj (blocks : List Json)
    (h : blocks.all Json.isObjB = true) :
    StreamParser.findToolResultBlock blocks = .ok
      ((specFirstWith blocks "tool_result").map (fun b =>
        { type := EventType.TOOL_RESULT,
          text := objGetD b "content" (Json.str ""),
          is_error := objGetD b "is_error" (Json.bool false) })) := by
  induction blocks with
  | nil => rfl
  | cons b rest ih =>
    rw [List.all_cons, Bool.and_eq_true] at h
    obtain ⟨fs, rfl⟩ := isObjB_exists h.1
    by_cases ht : (dictGet fs "type" Json.null).isStrEq "tool_result" = true
    · simp [StreamParser.findToolResultBlock, pyGet, specFirstWith, objGetD, ht]
    · simp [StreamParser.findToolResultBlock, pyGet, specFirstWith, objGetD, ht, ih h.2]

/-- Claim C2 (amended): on every well-shaped record, `parse` raises no
exception and returns either no event or an event matching a row of the
§4.1 mapping table (missing fields defaulting to empty string / empty
mapping / zero / false); records breaking the shape expectations can
raise (see the counterexample). -/
theorem parse_table_on_wellShaped (data : JObj) (hws : wellShaped data = true) :
    ∃ r, StreamParser.parse data = Except.ok r ∧
      (r = none ∨ ∃ ev, r = some ev ∧ MatchesTable data ev) := by
  by_cases hsys : (dictGet data "type" Json.null).isStrEq "system" = true
  · refine ⟨StreamParser.parseSystem data, by simp [StreamParser.parse, hsys], ?_⟩
    unfold StreamParser.parseSystem
    by_cases h2 : (dictGet data "subtype" Json.null).isStrEq "init" = true
    · right
      exact ⟨_, by simp [h2], Or.inl ⟨hsys, h2, rfl⟩⟩
    · left
      simp [h2]
  · by_cases hse : (dictGet data "type" Json.null).isStrEq "stream_event" = true
    · unfold wellShaped at hws
      rw [if_pos hse] at hws
      cases hev : dictGet data "event" (Json.obj []) with
      | obj infs =>
        rw [hev] at hws
        simp only [Bool.and_eq_true] at hws
        have hparse : StreamParser.parse data = StreamParser.parseStreamEvent data := by
          simp [StreamParser.parse, hsys, hse]
        unfold StreamParser.parseStreamEvent at hparse
        rw [hev] at hparse
        simp only [pyGet] at hparse
        by_cases h3 :
            (dictGet infs "type" Json.null).isStrEq "content_block_delta" = true
        · obtain ⟨dfs, hdelta⟩ := isObjB_exists hws.1
          rw [if_pos h3, hdelta] at hparse
          simp only [pyGet] at hparse
          by_cases h4 : (dictGet dfs "type" Json.null).isStrEq "text_delta" = true
          · rw [if_pos h4] at hparse
            refine ⟨_, hparse, Or.inr ⟨_, rfl, Or.inr (Or.inl ?_)⟩⟩
            unfold specRowTextDelta
            rw [hev]
            simp only [objGetD]
            rw [hdelta]
            simp only [objGetD]
            exact ⟨hse, h3, h4, by trivial⟩
          · rw [if_neg h4] at hparse
            exact ⟨none, hparse, Or.inl rfl⟩
        · by_cases h5 :
              (dictGet infs "type" Json.null).isStrEq "content_block_start" = true
          · obtain ⟨bfs, hblock⟩ := isObjB_exists hws.2
            rw [if_neg h3, if_pos h5, hblock] at hparse
            simp only [pyGet] at hparse
            by_cases h6 : (dictGet bfs "type" Json.null).isStrEq "tool_use" = true
            · rw [if_pos h6] at hparse
              refine ⟨_, hparse, Or.inr ⟨_, rfl, Or.inr (Or.inr (Or.inl ?_))⟩⟩
              unfold specRowToolStart
              rw [hev]
              simp only [objGetD]
              rw [hblock]
              simp only [objGetD]
              exact ⟨hse, h5, h6, by trivial⟩
            · rw [if_neg h6] at hparse
              exact ⟨none, hparse, Or.inl rfl⟩
          · rw [if_neg h3, if_neg h5] at hparse
            exact ⟨none, hparse, Or.inl rfl⟩
      | null => rw [hev] at hws; exact absurd hws (by simp)
      | bool b => rw [hev] at hws; exact absurd hws (by simp)
      | num q => rw [hev] at hws; exact absurd hws (by simp)
      | str s => rw [hev] at hws; exact absurd hws (by simp)
      | arr xs => rw [hev] at hws; exact absurd hws (by simp)
    · by_cases hasst : (dictGet data "type" Json.null).isStrEq "assistant" = true
      · unfold wellShaped at hws
        rw [if_neg hse, if_pos (by simp [hasst])] at hws
        cases hmsg : dictGet data "message" (Json.obj []) with
        | obj mfs =>
          rw [hmsg] at hws
          have hws2 : (match dictGet mfs "content" (Json.arr []) with
              | Json.arr blocks => blocks.all Json.isObjB
              | _ => false) = true := hws
          cases hcont : dictGet mfs "content" (Json.arr []) with
          | arr blocks =>
            rw [hcont] at hws2
            have hws3 : blocks.all Json.isObjB = true := hws2
            have hparse : StreamParser.parse data = StreamParser.parseAssistant data := by
              simp [StreamParser.parse, hsys, hse, hasst]
            unfold StreamParser.parseAssistant at hparse
            rw [hmsg] at hparse
            simp only [pyGet] at hparse
            rw [hcont] at hparse
            simp only [pyIter] at hparse
            rw [findToolUseBlock_all_obj blocks hws3] at hparse
            have hcl : contentList data = blocks := by
              unfold contentList
              rw [hmsg]
              simp only [objGetD]
              rw [hcont]
            cases hfind : specFirstWith blocks "tool_use" with
            | none =>
              rw [hfind] at hparse
              exact ⟨none, hparse, Or.inl rfl⟩
            | some b =>
              rw [hfind] at hparse
              refine ⟨_, hparse, Or.inr ⟨_, rfl, Or.inr (Or.inr (Or.inr (Or.inl ?_)))⟩⟩
              exact ⟨hasst, b, by rw [hcl]; exact hfind, rfl⟩
          | null => rw [hcont] at hws2; exact absurd hws2 (by simp)
          | bool b => rw [hcont] at hws2; exact absurd hws2 (by simp)
          | num q => rw [hcont] at hws2; exact absurd hws2 (by simp)
          | str s => rw [hcont] at hws2; exact absurd hws2 (by simp)
          | obj fs2 => rw [hcont] at hws2; exact absurd hws2 (by simp)
        | null => rw [hmsg] at hws; exact absurd hws (by simp)
        | bool b => rw [hmsg] at hws; exact absurd hws (by simp)
        | num q => rw [hmsg] at hws; exact absurd hws (by simp)
        | str s => rw [hmsg] at hws; exact absurd hws (by simp)
        | arr xs => rw [hmsg] at hws; exact absurd hws (by simp)
      · by_cases husr : (dictGet data "type" Json.null).isStrEq "user" = true
        · unfold wellShaped at hws
          rw [if_neg hse, if_pos (by simp [husr])] at hws
          cases hmsg : dictGet data "message" (Json.obj []) with
          | obj mfs =>
            rw [hmsg] at hws
            have hws2 : (match dictGet mfs "content" (Json.arr []) with
                | Json.arr blocks => blocks.all Json.isObjB
                | _ => false) = true := hws
            cases hcont : dictGet mfs "content" (Json.arr []) with
            | arr blocks =>
              rw [hcont] at hws2
              have hws3 : blocks.all Json.isObjB = true := hws2
              have hparse : StreamParser.parse data = StreamParser.parseUser data := by
                simp [StreamParser.parse, hsys, hse, hasst, husr]
              unfold StreamParser.parseUser at hparse
              rw [hmsg] at hparse
              simp only [pyGet] at hparse
              rw [hcont] at hparse
              simp only [pyIter] at hparse
              rw [findToolResultBlock_all_obj blocks hws3] at hparse
              have hcl : contentList data = blocks := by
                unfold contentList
                rw [hmsg]
                simp only [objGetD]
                rw [hcont]
              cases hfind : specFirstWith blocks "tool_result" with
              | none =>
                rw [hfind] at hparse
                exact ⟨none, hparse, Or.inl rfl⟩
              | some b =>
                rw [hfind] at hparse
                refine ⟨_, hparse,
                  Or.inr ⟨_, rfl, Or.inr (Or.inr (Or.inr (Or.inr (Or.inl ?_))))⟩⟩
                exact ⟨husr, b, by rw [hcl]; exact hfind, rfl⟩
            | null => rw [hcont] at hws2; exact absurd hws2 (by simp)
            | bool b => rw [hcont] at hws2; exact absurd hws2 (by simp)
            | num q => rw [hcont] at hws2; exact absurd hws2 (by simp)
            | str s => rw [hcont] at hws2; exact absurd hws2 (by simp)
            | obj fs2 => rw [hcont] at hws2; exact absurd hws2 (by simp)
          | null => rw [hmsg] at hws; exact absurd hws (by simp)
          | bool b => rw [hmsg] at hws; exact absurd hws (by simp)
          | num q => rw [hmsg] at hws; exact absurd hws (by simp)
          | str s => rw [hmsg] at hws; exact absurd hws (by simp)
          | arr xs => rw [hmsg] at hws; exact absurd hws (by simp)
        · by_cases hres : (dictGet data "type" Json.null).isStrEq "result" = true
          · refine ⟨some (StreamParser.parseResult data),
              by simp [StreamParser.parse, hsys, hse, hasst, husr, hres], ?_⟩
            right
            refine ⟨_, rfl, Or.inr (Or.inr (Or.inr (Or.inr (Or.inr ?_))))⟩
            exact ⟨hres, rfl⟩
          · exact ⟨none,
              by simp [StreamParser.parse, hsys, hse, hasst, husr, hres], Or.inl rfl⟩

/-- Witness for the amended C2: a concrete well-shaped init record parses
without an exception into an event matching the table. -/
theorem parse_table_witness :
    wellShaped [("type", Json.str "system"), ("subtype", Json.str "init"),
        ("session_id", Json.str "s1")] = true ∧
    ∃ r, StreamParser.parse [("type", Json.str "system"), ("subtype", Json.str "init"),
        ("session_id", Json.str "s1")] = Except.ok r ∧
      (r = none ∨ ∃ ev, r = some ev ∧
        MatchesTable [("type", Json.str "system"), ("subtype", Json.str "init"),
          ("session_id", Json.str "s1")] ev) :=
  ⟨rfl, parse_table_on_wellShaped _ rfl⟩

/-- Claim C2, counterexample: on the record
`{"type": "stream_event", "event": 5}` (a decoded JSON mapping), the
parser calls `.get` on the integer `5` and raises `AttributeError` — it
does not return none or an event, so parsing can raise. -/
theorem parse_raises_counterexample :
    StreamParser.parse [("type", Json.str "stream_event"), ("event", Json.num 5)] =
      Except.error PyErr.attributeError := rfl

/-- Witness for C7: draining a queue holding one stale event, one reader
error, and the EOF sentinel keeps exactly the sentinel. -/
theorem drain_preserves_eof_witness :
    (∀ x ∈ [QueueItem.event { type := EventType.TEXT_DELTA },
            QueueItem.readerError "boom"], x.isEOF = false) ∧
    drainPending [QueueItem.event { type := EventType.TEXT_DELTA },
        QueueItem.readerError "boom", QueueItem.eof "crashed" 1] =
      [QueueItem.eof "crashed" 1] :=
  ⟨by
    intro x hx
    simp at hx
    rcases hx with h | h
    · rw [h]; rfl
    · rw [h]; rfl,
   drain_preserves_eof
     [QueueItem.event { type := EventType.TEXT_DELTA }, QueueItem.readerError "boom"]
     "crashed" 1
     (by
       intro x hx
       simp at hx
       rcases hx with h | h
       · rw [h]; rfl
       · rw [h]; rfl)⟩

end ClaudeTg
